import Mathlib

/-!
A shallow embedding of the rtpoll real-time poll multiplexer
(`src/src/modules/module-appsurfer.c`, second compilation unit: `pa_rtpoll`).

Modelling conventions:
* Machine times (`struct timespec`, `pa_usec_t`) are modelled as `Nat`
  microseconds; the helpers `pa_timespec_add` / `pa_timespec_diff` /
  `pa_timespec_cmp` become ordinary `Nat` addition, truncated subtraction
  (guarded so it never actually truncates) and comparison.
* The `struct pollfd` arrays `p->pollfd` / `p->pollfd2` are `List Pollfd`
  holding the `n_pollfd_used` meaningful slots; `n_pollfd_alloc` tracks the
  allocated capacity separately.  An item's `i->pollfd` pointer into the
  active array is an offset `pollfd_off : Option Nat` (`none` = `NULL`).
* The free-list (`PA_STATIC_FLIST`) only recycles storage and has no
  observable effect on the data structure, so allocation is not modelled.
* Hook function pointers become a small closed type of hooks: `test r`
  stands for an arbitrary client hook whose before-callback returns `r`,
  and `fdsem` is the semaphore adapter hook of the source.
* The wait syscall (`ppoll`/`poll`) is adversarial: its return value, the
  `errno` it leaves behind and the readiness bits it writes are a parameter
  `WaitOutcome` of `pa_rtpoll_run`.
* Counters such as `n_pollfd_used` are C `unsigned`; in every reachable
  state the subtractions performed on them cannot underflow (an item's slot
  count is part of the sum it is subtracted from), so plain `Nat`
  subtraction coincides with the 32-bit arithmetic of the source.
-/

namespace Rtpoll

/-- Linux value of the POLLIN readiness/interest bit. -/
def POLLIN : Nat := 1

/-- Linux errno value for EAGAIN. -/
def EAGAIN : Int := 11

/-- Linux errno value for EINTR. -/
def EINTR : Int := 4

/-- One `struct pollfd` slot: descriptor, requested conditions, observed
conditions. -/
structure Pollfd where
  fd : Int
  events : Nat
  revents : Nat
  deriving DecidableEq, Repr

/-- The all-zero slot produced by `memset(e, 0, l)` during a rebuild. -/
def zeroPollfd : Pollfd := ⟨0, 0, 0⟩

/-- Opaque model of a `pa_fdsem` semaphore handle: its wait descriptor
(`pa_fdsem_get`) and the result its `pa_fdsem_before_poll` operation
would report. -/
structure pa_fdsem where
  fd : Int
  beforeRet : Int
  deriving DecidableEq, Repr

/-- The semaphore's descriptor, `pa_fdsem_get`. -/
def pa_fdsem_get (f : pa_fdsem) : Int := f.fd

/-- The semaphore's prepare-to-block operation, `pa_fdsem_before_poll`. -/
def pa_fdsem_before_poll (f : pa_fdsem) : Int := f.beforeRet

/-- Opaque user data stored in an item (`i->userdata`). -/
inductive Userdata where
  | nullUd : Userdata
  | fdsemUd : pa_fdsem → Userdata
  deriving DecidableEq, Repr

/-- A before-hook function pointer: either an arbitrary client hook with a
fixed return value, or the source's `fdsem_before` adapter hook. -/
inductive BeforeCb where
  | test : Int → BeforeCb
  | fdsem : BeforeCb
  deriving DecidableEq, Repr

/-- An after-hook function pointer: an arbitrary client hook or the
source's `fdsem_after` adapter hook. -/
inductive AfterCb where
  | test : AfterCb
  | fdsem : AfterCb
  deriving DecidableEq, Repr

/-- Result of invoking a before-hook (`i->before_cb(i)`).  The source's
`fdsem_before` delegates to `pa_fdsem_before_poll(i->userdata)`. -/
def interpBefore : BeforeCb → Userdata → Int
  | BeforeCb.test r, _ => r
  | BeforeCb.fdsem, Userdata.fdsemUd f => pa_fdsem_before_poll f
  | BeforeCb.fdsem, Userdata.nullUd => 0

/-- One `pa_rtpoll_item`: liveness flag, owned slot count, current slice
offset into the active buffer, optional hooks, user data.  The intrusive
prev/next links are represented by the item's position in the owning
set's `items` list. -/
structure pa_rtpoll_item where
  dead : Bool
  n_pollfd : Nat
  pollfd_off : Option Nat
  before_cb : Option BeforeCb
  after_cb : Option AfterCb
  userdata : Userdata
  deriving DecidableEq, Repr

/-- Placeholder item used as the default of out-of-range list reads. -/
def dfltItem : pa_rtpoll_item :=
  ⟨false, 0, none, none, none, Userdata.nullUd⟩

/-- The `pa_rtpoll` poll set.  `items` is the intrusive list, head first
(`PA_LLIST_PREPEND` inserts at the head). -/
structure pa_rtpoll where
  pollfd : List Pollfd
  pollfd2 : List Pollfd
  n_pollfd_alloc : Nat
  n_pollfd_used : Nat
  timer_enabled : Bool
  next_elapse : Nat
  period : Nat
  scan_for_dead : Bool
  running : Bool
  installed : Bool
  rebuild_needed : Bool
  items : List pa_rtpoll_item
  deriving DecidableEq, Repr

/-- `pa_rtpoll_new`: fresh poll set (32 preallocated slots, all counters
and flags cleared, empty item list). -/
def pa_rtpoll_new : pa_rtpoll :=
  { pollfd := []
    pollfd2 := []
    n_pollfd_alloc := 32
    n_pollfd_used := 0
    timer_enabled := false
    next_elapse := 0
    period := 0
    scan_for_dead := false
    running := false
    installed := false
    rebuild_needed := false
    items := [] }

/-- A fresh item as initialized by `pa_rtpoll_item_new`: live, `n_fds`
slots, `NULL` slice, no hooks, no user data. -/
def mkFreshItem (n_fds : Nat) : pa_rtpoll_item :=
  { dead := false
    n_pollfd := n_fds
    pollfd_off := none
    before_cb := none
    after_cb := none
    userdata := Userdata.nullUd }

/-- `pa_rtpoll_item_new`: allocate (or recycle) an item, initialize it,
prepend it to the item list, mark the layout stale and account its
slots.  The new item sits at index 0 of `items`. -/
def pa_rtpoll_item_new (p : pa_rtpoll) (n_fds : Nat) : pa_rtpoll :=
  { p with items := mkFreshItem n_fds :: p.items
           rebuild_needed := true
           n_pollfd_used := p.n_pollfd_used + n_fds }

/-- `rtpoll_item_destroy`: unlink the item at `idx`, release its slot
accounting, return its storage to the pool and mark the layout stale. -/
def rtpoll_item_destroy (p : pa_rtpoll) (idx : Nat) : pa_rtpoll :=
  { p with items := p.items.eraseIdx idx
           n_pollfd_used := p.n_pollfd_used - (p.items.getD idx dfltItem).n_pollfd
           rebuild_needed := true }

/-- `pa_rtpoll_item_free` on the item at index `idx`: while a cycle is
running only mark the item dead and request a reap; otherwise destroy it
immediately.  An out-of-range index is a no-op (the C caller always passes
a valid item). -/
def pa_rtpoll_item_free (p : pa_rtpoll) (idx : Nat) : pa_rtpoll :=
  if h : idx < p.items.length then
    if p.running then
      { p with items := p.items.set idx { p.items.get ⟨idx, h⟩ with dead := true }
               scan_for_dead := true }
    else
      rtpoll_item_destroy p idx
  else p

/-- Read `n` slots starting at `off` (the `memcpy` of a rebuild); slots
beyond the end of the buffer read as zero (never happens in a well-formed
state, where each item's slice lies inside the buffer). -/
def readSlice (buf : List Pollfd) (off n : Nat) : List Pollfd :=
  ((buf.drop off).take n) ++
    List.replicate (n - ((buf.drop off).take n).length) zeroPollfd

/-- The rebuild loop of `rtpoll_rebuild`: walk the items in list order,
give each item the next `n_pollfd` slots of the scratch buffer (copying
its previous slice, or zero-filling if it had none), advancing a running
offset.  Returns the re-pointed items and the newly built buffer. -/
def rebuildItems : List pa_rtpoll_item → List Pollfd → Nat →
    (List pa_rtpoll_item × List Pollfd)
  | [], _, _ => ([], [])
  | i :: rest, oldBuf, off =>
    if 0 < i.n_pollfd then
      let slice := match i.pollfd_off with
        | some o => readSlice oldBuf o i.n_pollfd
        | none => List.replicate i.n_pollfd zeroPollfd
      let r := rebuildItems rest oldBuf (off + i.n_pollfd)
      ({ i with pollfd_off := some off } :: r.1, slice ++ r.2)
    else
      let r := rebuildItems rest oldBuf off
      ({ i with pollfd_off := none } :: r.1, r.2)

/-- `rtpoll_rebuild`: grow (double) the allocation if the used count
exceeds it, merge every item's slots into the scratch buffer in list
order, then swap active and scratch. -/
def rtpoll_rebuild (p : pa_rtpoll) : pa_rtpoll :=
  let alloc := if p.n_pollfd_alloc < p.n_pollfd_used
    then p.n_pollfd_used * 2 else p.n_pollfd_alloc
  let r := rebuildItems p.items p.pollfd 0
  { p with rebuild_needed := false
           n_pollfd_alloc := alloc
           items := r.1
           pollfd := r.2
           pollfd2 := p.pollfd }

/-- `pa_rtpoll_item_get_pollfd` on the item at `idx`: trigger a pending
rebuild, then hand back the item's slice offset. -/
def pa_rtpoll_item_get_pollfd (p : pa_rtpoll) (idx : Nat) :
    pa_rtpoll × Option Nat :=
  let p1 := if p.rebuild_needed then rtpoll_rebuild p else p
  (p1, (p1.items.getD idx dfltItem).pollfd_off)

/-- Total slot count of a list of items. -/
def slotSum (items : List pa_rtpoll_item) : Nat :=
  (items.map (fun i => i.n_pollfd)).sum

/-- Total slot count of the live (non-dead) items. -/
def liveSlotSum (items : List pa_rtpoll_item) : Nat :=
  slotSum (items.filter (fun i => !i.dead))

/-- An observable event of one `pa_rtpoll_run` cycle: a before-hook call,
the wait syscall, or an after-hook call together with the readiness bits
the hook observes on its own slice. -/
inductive Event where
  | beforeCall : Nat → Event
  | wait : Event
  | afterCall : Nat → List Nat → Event
  deriving DecidableEq, Repr

/-- The adversarial outcome of the wait syscall: its return value, the
`errno` it leaves behind, and the readiness bits it wrote into the first
slots of the active buffer (a shorter list leaves the remaining slots
untouched, as an interrupted call may). -/
structure WaitOutcome where
  ret : Int
  errno : Int
  revents : List Nat
  deriving DecidableEq, Repr

/-- Result of one `pa_rtpoll_run`: final poll-set state, the returned
`r`, the `errno` visible to the caller on return (`none` on the abort
path, where the source restores an indeterminate `saved_errno`), and the
cycle's event trace. -/
structure RunResult where
  state : pa_rtpoll
  ret : Int
  errnoOut : Option Int
  trace : List Event
  deriving DecidableEq, Repr

/-- Write the readiness bits the wait call produced over the buffer;
slots beyond the written prefix keep their previous bits. -/
def applyRevents : List Pollfd → List Nat → List Pollfd
  | buf, [] => buf
  | [], _ => []
  | s :: buf, r :: rs => { s with revents := r } :: applyRevents buf rs

/-- The readiness bits an item's hook can observe on its slice of the
buffer (`i->pollfd[0..n_pollfd)`); an item with a `NULL` slice observes
nothing. -/
def sliceRevents (buf : List Pollfd) (i : pa_rtpoll_item) : List Nat :=
  match i.pollfd_off with
  | none => []
  | some off => ((buf.drop off).take i.n_pollfd).map (fun s => s.revents)

/-- Zero the readiness bits of the slots `[off, off + n)` of the buffer
(the `i->pollfd[j].revents = 0` loop of `pa_rtpoll_run`). -/
def clearRange (buf : List Pollfd) (off n : Nat) : List Pollfd :=
  buf.take off ++
    (((buf.drop off).take n).map (fun s => { s with revents := 0 })) ++
    buf.drop (off + n)

/-- Zero the readiness bits of an item's slice; no slots are touched when
the item has no slice. -/
def clearSlice (buf : List Pollfd) (i : pa_rtpoll_item) : List Pollfd :=
  match i.pollfd_off with
  | none => buf
  | some off => clearRange buf off i.n_pollfd

/-- The forward before-hook pass of `pa_rtpoll_run` (`for (i = p->items;
...)`): skip dead items and items with no before-hook, invoke the hook of
the rest in list order, and stop at the first hook reporting abort
(negative return).  `idx` is the absolute list index of the first item of
the argument.  Returns the emitted before-call events and the absolute
index of the aborting item, if any. -/
def before_loop : List pa_rtpoll_item → Nat → List Event × Option Nat
  | [], _ => ([], none)
  | i :: rest, idx =>
    if i.dead then before_loop rest (idx + 1)
    else match i.before_cb with
      | none => before_loop rest (idx + 1)
      | some cb =>
        if interpBefore cb i.userdata < 0 then
          ([Event.beforeCall idx], some idx)
        else
          let r := before_loop rest (idx + 1)
          (Event.beforeCall idx :: r.1, r.2)

/-- The rollback pass (`for (i = i->prev; i; i = i->prev)`): walk
backward from list index `k - 1` down to 0, invoking the after-hook of
every live item that has one. -/
def rollback_loop (items : List pa_rtpoll_item) (buf : List Pollfd) :
    Nat → List Event
  | 0 => []
  | j + 1 =>
    let i := items.getD j dfltItem
    (if !i.dead && i.after_cb.isSome
      then [Event.afterCall j (sliceRevents buf i)] else []) ++
    rollback_loop items buf j

/-- The after-hook dispatch pass: walk items in list order, skip dead
items and items with no after-hook; when the cycle was classified as
"no events", zero the item's readiness bits just before invoking its
hook.  Returns the updated buffer and the after-call events. -/
def after_loop : List pa_rtpoll_item → Nat → List Pollfd → Bool →
    List Pollfd × List Event
  | [], _, buf, _ => (buf, [])
  | i :: rest, idx, buf, noEv =>
    if i.dead then after_loop rest (idx + 1) buf noEv
    else if i.after_cb.isNone then after_loop rest (idx + 1) buf noEv
    else
      let buf1 := if noEv then clearSlice buf i else buf
      let r := after_loop rest (idx + 1) buf1 noEv
      (r.1, Event.afterCall idx (sliceRevents buf1 i) :: r.2)

/-- The dead-item reaping loop at the `finish:` label: destroy every dead
item.  Returns the surviving items, the total slot count released by the
destroyed items, and whether any item was destroyed (each destroy marks
the layout stale). -/
def reap_items : List pa_rtpoll_item → List pa_rtpoll_item × Nat × Bool
  | [] => ([], 0, false)
  | i :: rest =>
    let r := reap_items rest
    if i.dead then (r.1, r.2.1 + i.n_pollfd, true)
    else (i :: r.1, r.2.1, r.2.2)

/-- The `finish:` label of `pa_rtpoll_run`: clear the running flag and,
if a mid-cycle free requested it, reap all dead items (unlink, release
slot accounting, mark the layout stale). -/
def run_finish (p : pa_rtpoll) : pa_rtpoll :=
  let p1 := { p with running := false }
  if p1.scan_for_dead then
    let r := reap_items p1.items
    { p1 with scan_for_dead := false
              items := r.1
              n_pollfd_used := p1.n_pollfd_used - r.2.1
              rebuild_needed := if r.2.2 then true else p1.rebuild_needed }
  else p1

/-- The post-wait timer update of `pa_rtpoll_run` (lines 495-508): a
periodic timer advances its deadline by one period and then, if still in
the past, by the number of whole missed periods plus one; a one-shot
timer is disabled.  `now2` is the clock reading taken after the wait
call returned. -/
def run_update_timer (p : pa_rtpoll) (now2 : Nat) : pa_rtpoll :=
  if p.timer_enabled then
    if 0 < p.period then
      let ne := p.next_elapse + p.period
      let ne := if ne < now2
        then ne + ((now2 - ne) / p.period + 1) * p.period else ne
      { p with next_elapse := ne }
    else { p with timer_enabled := false }
  else p

/-- The wait-and-bookkeeping section of `pa_rtpoll_run`: rebuild a stale
layout, let the wait syscall write its readiness bits, update the timer,
and classify the outcome (`r == 0` or a benign `EAGAIN`/`EINTR`
interruption count as "no events" and yield return value 0).  Returns the
updated state, the value of `r` after reclassification, and the
`no_events` flag. -/
def run_wait_phase (p : pa_rtpoll) (now2 : Nat) (w : WaitOutcome) :
    pa_rtpoll × Int × Bool :=
  let p1 := if p.rebuild_needed then rtpoll_rebuild p else p
  let p2 := { p1 with pollfd := applyRevents p1.pollfd w.revents }
  let p3 := run_update_timer p2 now2
  let noEv := (w.ret == 0) ||
    (decide (w.ret < 0) && (w.errno == EAGAIN || w.errno == EINTR))
  (p3, if noEv then 0 else w.ret, noEv)

/-- Everything `pa_rtpoll_run` does before the `finish:` label: set the
running flag, run the before pass; on abort, run the rollback (the wait
is not issued, `r` stays 0 and `saved_errno` is never assigned);
otherwise rebuild, wait, update the timer, classify and dispatch the
after-hooks. -/
def run_pre_finish (p0 : pa_rtpoll) (now2 : Nat) (w : WaitOutcome) :
    pa_rtpoll × Int × Option Int × List Event :=
  match before_loop p0.items 0 with
  | (bevs, some k) =>
    ({ p0 with running := true }, 0, none,
      bevs ++ rollback_loop p0.items p0.pollfd k)
  | (bevs, none) =>
    let r3 := run_wait_phase { p0 with running := true } now2 w
    let ra := after_loop r3.1.items 0 r3.1.pollfd r3.2.2
    ({ r3.1 with pollfd := ra.1 }, r3.2.1, some w.errno,
      bevs ++ Event.wait :: ra.2)

/-- `pa_rtpoll_run`: one full wait cycle.  `now2` is the clock reading at
resume (after the wait call) and `w` the adversarial wait outcome.  Hooks
are observationally pure here; `pa_rtpoll_run_frees` below additionally
models hooks that free items mid-cycle. -/
def pa_rtpoll_run (p : pa_rtpoll) (now2 : Nat) (w : WaitOutcome) :
    RunResult :=
  let r := run_pre_finish p now2 w
  ⟨run_finish r.1, r.2.1, r.2.2.1, r.2.2.2⟩

/-- `pa_rtpoll_run` for a cycle in which the dispatched hooks call
`pa_rtpoll_item_free` on the items listed in `frees` (modelled at the end
of the dispatch phase, while the running flag is still set), before the
`finish:` label reaps. -/
def pa_rtpoll_run_frees (p : pa_rtpoll) (now2 : Nat) (w : WaitOutcome)
    (frees : List Nat) : RunResult :=
  let r := run_pre_finish p now2 w
  ⟨run_finish (frees.foldl pa_rtpoll_item_free r.1), r.2.1, r.2.2.1,
    r.2.2.2⟩

/-- `pa_rtpoll_item_new_fdsem`: build a one-slot item over a semaphore
handle, read back its slice (forcing the rebuild the creation made
pending), store the semaphore's descriptor with the POLLIN interest
condition in that slot, and wire the `fdsem` adapter hooks and user
data.  The new item is at index 0. -/
def pa_rtpoll_item_new_fdsem (p : pa_rtpoll) (f : pa_fdsem) : pa_rtpoll :=
  let p1 := pa_rtpoll_item_new p 1
  let g := pa_rtpoll_item_get_pollfd p1 0
  let p2 := match g.2 with
    | some off =>
      { g.1 with pollfd :=
          g.1.pollfd.take off ++
          (match g.1.pollfd.drop off with
           | [] => []
           | s :: rest =>
             { s with fd := pa_fdsem_get f, events := POLLIN } :: rest) }
    | none => g.1
  { p2 with items :=
      match p2.items with
      | [] => []
      | i :: rest =>
        { i with before_cb := some BeforeCb.fdsem
                 after_cb := some AfterCb.fdsem
                 userdata := Userdata.fdsemUd f } :: rest }

/-- An item whose before-hook would be invoked and report abort in the
forward pass: live, has a before-hook, and that hook returns a negative
value. -/
def itemBeforeAborts (i : pa_rtpoll_item) : Bool :=
  !i.dead && (match i.before_cb with
    | none => false
    | some cb => decide (interpBefore cb i.userdata < 0))

/-- A live item that has a before-hook (it is invoked by the forward
pass). -/
def hasLiveBefore (i : pa_rtpoll_item) : Bool :=
  !i.dead && i.before_cb.isSome

/-- A live item that has an after-hook (it is invoked by the dispatch or
rollback pass). -/
def hasLiveAfter (i : pa_rtpoll_item) : Bool :=
  !i.dead && i.after_cb.isSome

/-- Index of the first item of the list whose before-hook aborts the
cycle, if any. -/
def firstAbortIdx : List pa_rtpoll_item → Option Nat
  | [] => none
  | i :: rest =>
    if itemBeforeAborts i then some 0
    else (firstAbortIdx rest).map (fun j => j + 1)

/-- List indices (starting at `idx`) of the items satisfying `pred`, in
list order. -/
def scanIdxs (pred : pa_rtpoll_item → Bool) :
    List pa_rtpoll_item → Nat → List Nat
  | [], _ => []
  | i :: rest, idx =>
    (if pred i then [idx] else []) ++ scanIdxs pred rest (idx + 1)

/-- The indices of the before-hook calls of a trace, in order. -/
def beforeIdxs (tr : List Event) : List Nat :=
  tr.filterMap (fun e => match e with
    | Event.beforeCall j => some j
    | _ => none)

/-- The indices of the after-hook calls of a trace, in order. -/
def afterIdxs (tr : List Event) : List Nat :=
  tr.filterMap (fun e => match e with
    | Event.afterCall j _ => some j
    | _ => none)

/-- An item-lifecycle operation performed while no cycle is running:
create an item with `n` slots, or free the item at list index `idx`. -/
inductive Op where
  | newOp : Nat → Op
  | freeOp : Nat → Op
  deriving DecidableEq, Repr

/-- Apply one lifecycle operation to a poll set. -/
def applyOp (p : pa_rtpoll) : Op → pa_rtpoll
  | Op.newOp n => pa_rtpoll_item_new p n
  | Op.freeOp idx => pa_rtpoll_item_free p idx

/-- The lifecycle invariant maintained outside of cycles: no cycle in
progress, no dead item lingering, and the used-slot count equal to the
total slot count of the items in the list. -/
def LifecycleInv (p : pa_rtpoll) : Prop :=
  p.running = false ∧ (∀ i ∈ p.items, i.dead = false) ∧
    p.n_pollfd_used = slotSum p.items

/- ------------------------------------------------------------------
List helper lemmas used throughout the development.
------------------------------------------------------------------ -/

theorem getD_set_ne {α : Type} (l : List α) (a d : α) :
    ∀ (i j : Nat), i ≠ j → (l.set i a).getD j d = l.getD j d := by
  induction l with
  | nil => intro i j _; simp
  | cons x xs ih =>
    intro i j hij
    cases i with
    | zero =>
      cases j with
      | zero => exact absurd rfl hij
      | succ j => simp [List.getD]
    | succ i =>
      cases j with
      | zero => simp [List.getD]
      | succ j =>
        have := ih i j (fun h => hij (by rw [h]))
        simpa [List.getD] using this

theorem getD_set_self {α : Type} (l : List α) (a d : α) :
    ∀ (i : Nat), i < l.length → (l.set i a).getD i d = a := by
  induction l with
  | nil => intro i h; simp at h
  | cons x xs ih =>
    intro i h
    cases i with
    | zero => simp [List.getD]
    | succ i =>
      have := ih i (by simpa using h)
      simpa [List.getD] using this

theorem get_eq_getD {α : Type} (l : List α) (d : α) (i : Nat)
    (h : i < l.length) : l.get ⟨i, h⟩ = l.getD i d := by
  induction l generalizing i with
  | nil => simp at h
  | cons x xs ih =>
    cases i with
    | zero => simp [List.getD]
    | succ i => simpa [List.getD] using ih i (by simpa using h)

theorem length_set_eq {α : Type} (l : List α) (a : α) (i : Nat) :
    (l.set i a).length = l.length := by
  simp

/- ------------------------------------------------------------------
C9 — item creation links at the head of the list.
------------------------------------------------------------------ -/

/-- C9: `pa_rtpoll_item_new` always links the new item at the head of the
item list, so after any sequence of creations the list enumerates the
items in reverse creation order (most recently created first), on top of
whatever the list held before. -/
theorem c9_prepend_reverse_order (p : pa_rtpoll) (ns : List Nat) :
    (ns.foldl pa_rtpoll_item_new p).items =
      (ns.map mkFreshItem).reverse ++ p.items := by
  induction ns generalizing p with
  | nil => simp
  | cons n rest ih =>
    simp only [List.foldl_cons, List.map_cons, List.reverse_cons]
    rw [ih]
    simp [pa_rtpoll_item_new]

/- ------------------------------------------------------------------
C3 — buffer layout of a rebuild.
------------------------------------------------------------------ -/

/-- C3 counterexample: after creating items requesting 2, 1 and 3 slots
in that order and rebuilding, the first-created item (the one requesting
2 slots, now at the tail of the list) owns the slots starting at offset
4, not offset 0 as the claim states. -/
theorem c3_layout_counterexample :
    ((rtpoll_rebuild
        (List.foldl pa_rtpoll_item_new pa_rtpoll_new [2, 1, 3])).items.getD
          2 dfltItem).n_pollfd = 2 ∧
    ((rtpoll_rebuild
        (List.foldl pa_rtpoll_item_new pa_rtpoll_new [2, 1, 3])).items.getD
          2 dfltItem).pollfd_off = some 4 ∧
    some 4 ≠ (some 0 : Option Nat) := by
  decide

/-- C3 amended: with items requesting 2, 1 and 3 slots created in that
order, a rebuild produces a 6-slot active buffer laid out in item-list
order, which is reverse creation order: the third-created item (3 slots)
owns slots `[0, 3)`, the second-created (1 slot) owns `[3, 4)` and the
first-created (2 slots) owns `[4, 6)`. -/
theorem c3_layout_listorder :
    ((rtpoll_rebuild
        (List.foldl pa_rtpoll_item_new pa_rtpoll_new [2, 1, 3])).pollfd.length
      = 6) ∧
    ((rtpoll_rebuild
        (List.foldl pa_rtpoll_item_new pa_rtpoll_new [2, 1, 3])).items.map
          (fun i => (i.n_pollfd, i.pollfd_off)))
      = [(3, some 0), (1, some 3), (2, some 4)] ∧
    ((rtpoll_rebuild
        (List.foldl pa_rtpoll_item_new pa_rtpoll_new [2, 1, 3])).n_pollfd_used
      = 6) := by
  decide

/- ------------------------------------------------------------------
C10 — frame property of a mid-cycle free.
------------------------------------------------------------------ -/

/-- C10: while a cycle is running, `pa_rtpoll_item_free` only sets the
item's dead flag and the set's `scan_for_dead` flag; both descriptor
buffers, the allocation and used counts, the timer state, the running,
installed and rebuild flags, the list length, all other items, and every
other field of the freed item (slot count, slice, hooks, user data) are
unchanged. -/
theorem c10_free_running_frame (p : pa_rtpoll) (idx : Nat)
    (hrun : p.running = true) (hidx : idx < p.items.length) :
    (pa_rtpoll_item_free p idx).pollfd = p.pollfd ∧
    (pa_rtpoll_item_free p idx).pollfd2 = p.pollfd2 ∧
    (pa_rtpoll_item_free p idx).n_pollfd_alloc = p.n_pollfd_alloc ∧
    (pa_rtpoll_item_free p idx).n_pollfd_used = p.n_pollfd_used ∧
    (pa_rtpoll_item_free p idx).timer_enabled = p.timer_enabled ∧
    (pa_rtpoll_item_free p idx).next_elapse = p.next_elapse ∧
    (pa_rtpoll_item_free p idx).period = p.period ∧
    (pa_rtpoll_item_free p idx).running = p.running ∧
    (pa_rtpoll_item_free p idx).installed = p.installed ∧
    (pa_rtpoll_item_free p idx).rebuild_needed = p.rebuild_needed ∧
    (pa_rtpoll_item_free p idx).scan_for_dead = true ∧
    (pa_rtpoll_item_free p idx).items.length = p.items.length ∧
    (∀ j, j ≠ idx →
      (pa_rtpoll_item_free p idx).items.getD j dfltItem =
        p.items.getD j dfltItem) ∧
    (pa_rtpoll_item_free p idx).items.getD idx dfltItem =
      { p.items.getD idx dfltItem with dead := true } := by
  unfold pa_rtpoll_item_free
  rw [dif_pos hidx, if_pos hrun]
  refine ⟨rfl, rfl, rfl, rfl, rfl, rfl, rfl, rfl, rfl, rfl, rfl, ?_, ?_, ?_⟩
  · simp
  · intro j hj
    exact getD_set_ne _ _ _ idx j (fun h => hj h.symm)
  · rw [getD_set_self _ _ _ idx hidx, get_eq_getD p.items dfltItem idx hidx]

/-- Witness for C10 at a concrete input: a running poll set with one
item. -/
theorem c10_free_running_frame_witness :
    ({ pa_rtpoll_new with
        running := true
        items := [mkFreshItem 2]
        n_pollfd_used := 2 } : pa_rtpoll).running = true ∧
    (0 : Nat) < ({ pa_rtpoll_new with
        running := true
        items := [mkFreshItem 2]
        n_pollfd_used := 2 } : pa_rtpoll).items.length ∧
    (pa_rtpoll_item_free { pa_rtpoll_new with
        running := true
        items := [mkFreshItem 2]
        n_pollfd_used := 2 } 0).scan_for_dead = true :=
  ⟨rfl, by decide,
    (c10_free_running_frame
      { pa_rtpoll_new with
          running := true
          items := [mkFreshItem 2]
          n_pollfd_used := 2 } 0 rfl (by decide)).2.2.2.2.2.2.2.2.2.2.1⟩

/- ------------------------------------------------------------------
C6 — used-slot accounting invariant of the item lifecycle.
------------------------------------------------------------------ -/

theorem slotSum_cons (i : pa_rtpoll_item) (l : List pa_rtpoll_item) :
    slotSum (i :: l) = i.n_pollfd + slotSum l := by
  simp [slotSum]

theorem slotSum_eraseIdx (l : List pa_rtpoll_item) :
    ∀ idx, idx < l.length →
      slotSum (l.eraseIdx idx) + (l.getD idx dfltItem).n_pollfd =
        slotSum l := by
  induction l with
  | nil => intro idx h; simp at h
  | cons i rest ih =>
    intro idx h
    cases idx with
    | zero => simp [List.eraseIdx, slotSum_cons, List.getD, Nat.add_comm]
    | succ idx =>
      have := ih idx (by simpa using h)
      simp only [List.eraseIdx, slotSum_cons, List.getD_cons_succ]
      omega

theorem mem_of_mem_eraseIdx {l : List pa_rtpoll_item} {idx : Nat}
    {i : pa_rtpoll_item} (h : i ∈ l.eraseIdx idx) : i ∈ l := by
  induction l generalizing idx with
  | nil => simp [List.eraseIdx] at h
  | cons x xs ih =>
    cases idx with
    | zero => simp only [List.eraseIdx] at h; exact List.mem_cons_of_mem _ h
    | succ idx =>
      simp only [List.eraseIdx] at h
      rcases List.mem_cons.mp h with h1 | h1
      · exact h1 ▸ List.mem_cons_self _ _
      · exact List.mem_cons_of_mem _ (ih h1)

theorem lifecycleInv_applyOp (p : pa_rtpoll) (op : Op)
    (h : LifecycleInv p) : LifecycleInv (applyOp p op) := by
  obtain ⟨hrun, hlive, hsum⟩ := h
  cases op with
  | newOp n =>
    refine ⟨hrun, ?_, ?_⟩
    · intro i hi
      rcases List.mem_cons.mp hi with h1 | h1
      · rw [h1]; rfl
      · exact hlive i h1
    · simp only [applyOp, pa_rtpoll_item_new, slotSum_cons, hsum]
      simp [mkFreshItem, Nat.add_comm]
  | freeOp idx =>
    simp only [applyOp, pa_rtpoll_item_free]
    by_cases hidx : idx < p.items.length
    · rw [dif_pos hidx, if_neg (by rw [hrun]; exact Bool.false_ne_true)]
      refine ⟨hrun, ?_, ?_⟩
      · intro i hi
        exact hlive i (mem_of_mem_eraseIdx hi)
      · have h2 := slotSum_eraseIdx p.items idx hidx
        simp only [rtpoll_item_destroy, hsum]
        omega
    · rw [dif_neg hidx]
      exact ⟨hrun, hlive, hsum⟩

/-- C6: starting from a fresh poll set, after any finite sequence of item
creations and destructions performed while no cycle is running, the
used-slot count equals the total requested slot count of the live
(non-dead) items in the list. -/
theorem c6_used_slots_invariant (ops : List Op) :
    (ops.foldl applyOp pa_rtpoll_new).n_pollfd_used =
      liveSlotSum (ops.foldl applyOp pa_rtpoll_new).items := by
  have hfold : ∀ (l : List Op) (q : pa_rtpoll), LifecycleInv q →
      LifecycleInv (l.foldl applyOp q) := by
    intro l
    induction l with
    | nil => intro q hq; exact hq
    | cons op rest ih =>
      intro q hq
      exact ih _ (lifecycleInv_applyOp _ op hq)
  have hinv : LifecycleInv (ops.foldl applyOp pa_rtpoll_new) := by
    refine hfold ops pa_rtpoll_new ⟨rfl, ?_, rfl⟩
    intro i hi
    simp [pa_rtpoll_new] at hi
  obtain ⟨_, hlive, hsum⟩ := hinv
  rw [hsum, liveSlotSum]
  congr 1
  exact (List.filter_eq_self.mpr (fun i hi => by rw [hlive i hi]; rfl)).symm

/- ------------------------------------------------------------------
C8 — the semaphore-wait adapter.
------------------------------------------------------------------ -/

/-- C8: `pa_rtpoll_item_new_fdsem` yields a one-slot item at the head of
the list whose slot holds the semaphore's own descriptor with exactly the
POLLIN (readable) interest condition and no readiness bits, and whose
before/after hooks are the `fdsem` adapter hooks, the before-hook
delegating to the semaphore's prepare-to-block operation. -/
theorem c8_fdsem_adapter (p : pa_rtpoll) (f : pa_fdsem) :
    ((pa_rtpoll_item_new_fdsem p f).items.getD 0 dfltItem).n_pollfd = 1 ∧
    ((pa_rtpoll_item_new_fdsem p f).items.getD 0 dfltItem).pollfd_off
      = some 0 ∧
    ((pa_rtpoll_item_new_fdsem p f).items.getD 0 dfltItem).before_cb
      = some BeforeCb.fdsem ∧
    ((pa_rtpoll_item_new_fdsem p f).items.getD 0 dfltItem).after_cb
      = some AfterCb.fdsem ∧
    ((pa_rtpoll_item_new_fdsem p f).items.getD 0 dfltItem).userdata
      = Userdata.fdsemUd f ∧
    ((pa_rtpoll_item_new_fdsem p f).pollfd.getD 0 zeroPollfd).fd
      = pa_fdsem_get f ∧
    ((pa_rtpoll_item_new_fdsem p f).pollfd.getD 0 zeroPollfd).events
      = POLLIN ∧
    ((pa_rtpoll_item_new_fdsem p f).pollfd.getD 0 zeroPollfd).revents
      = 0 ∧
    interpBefore BeforeCb.fdsem (Userdata.fdsemUd f)
      = pa_fdsem_before_poll f := by
  simp [pa_rtpoll_item_new_fdsem, pa_rtpoll_item_new,
    pa_rtpoll_item_get_pollfd, mkFreshItem, rtpoll_rebuild, rebuildItems,
    interpBefore, List.getD, zeroPollfd]

/- ------------------------------------------------------------------
Bridging lemmas between the cycle loops and their index-level
specifications.
------------------------------------------------------------------ -/

theorem before_loop_snd (items : List pa_rtpoll_item) :
    ∀ idx, (before_loop items idx).2 =
      (firstAbortIdx items).map (fun j => j + idx) := by
  induction items with
  | nil => intro idx; simp [before_loop, firstAbortIdx]
  | cons i rest ih =>
    intro idx
    obtain ⟨d, n, off, bcb, acb, ud⟩ := i
    simp only [before_loop, firstAbortIdx, itemBeforeAborts]
    cases d with
    | true => cases h : firstAbortIdx rest <;> simp [ih (idx + 1), h] <;> omega
    | false =>
      cases bcb with
      | none => cases h : firstAbortIdx rest <;> simp [ih (idx + 1), h] <;> omega
      | some cb =>
        by_cases hlt : interpBefore cb ud < 0
        · simp [hlt]
        · cases h : firstAbortIdx rest with
          | none => simp [hlt, ih (idx + 1), h]
          | some j =>
            simp [hlt, ih (idx + 1), h]
            omega

theorem run_pre_finish_abort (p0 : pa_rtpoll) (now2 : Nat)
    (w : WaitOutcome) (bevs : List Event) (k : Nat)
    (h : before_loop p0.items 0 = (bevs, some k)) :
    run_pre_finish p0 now2 w =
      ({ p0 with running := true }, 0, none,
        bevs ++ rollback_loop p0.items p0.pollfd k) := by
  unfold run_pre_finish
  rw [h]

theorem run_pre_finish_noabort (p0 : pa_rtpoll) (now2 : Nat)
    (w : WaitOutcome) (bevs : List Event)
    (h : before_loop p0.items 0 = (bevs, none)) :
    run_pre_finish p0 now2 w =
      ({ (run_wait_phase { p0 with running := true } now2 w).1 with
          pollfd :=
            (after_loop (run_wait_phase { p0 with running := true } now2 w).1.items
              0 (run_wait_phase { p0 with running := true } now2 w).1.pollfd
              (run_wait_phase { p0 with running := true } now2 w).2.2).1 },
        (run_wait_phase { p0 with running := true } now2 w).2.1,
        some w.errno,
        bevs ++ Event.wait ::
          (after_loop (run_wait_phase { p0 with running := true } now2 w).1.items
            0 (run_wait_phase { p0 with running := true } now2 w).1.pollfd
            (run_wait_phase { p0 with running := true } now2 w).2.2).2) := by
  unfold run_pre_finish
  rw [h]

theorem run_finish_next_elapse (p : pa_rtpoll) :
    (run_finish p).next_elapse = p.next_elapse := by
  by_cases h : p.scan_for_dead <;> simp [run_finish, h]

theorem run_finish_timer_enabled (p : pa_rtpoll) :
    (run_finish p).timer_enabled = p.timer_enabled := by
  by_cases h : p.scan_for_dead <;> simp [run_finish, h]

/- ------------------------------------------------------------------
C2 — the periodic-timer deadline update.
------------------------------------------------------------------ -/

theorem run_update_timer_next_elapse (q : pa_rtpoll) (now2 : Nat) :
    (run_update_timer q now2).next_elapse =
      if q.timer_enabled = true ∧ 0 < q.period then
        (if q.next_elapse + q.period < now2 then
          q.next_elapse + q.period +
            ((now2 - (q.next_elapse + q.period)) / q.period + 1) * q.period
        else q.next_elapse + q.period)
      else q.next_elapse := by
  unfold run_update_timer
  by_cases hen : q.timer_enabled <;> by_cases hper : 0 < q.period <;>
    simp [hen, hper]

theorem run_next_elapse_noabort (p : pa_rtpoll) (now2 : Nat)
    (w : WaitOutcome) (hab : firstAbortIdx p.items = none) :
    (pa_rtpoll_run p now2 w).state.next_elapse =
      if p.timer_enabled = true ∧ 0 < p.period then
        (if p.next_elapse + p.period < now2 then
          p.next_elapse + p.period +
            ((now2 - (p.next_elapse + p.period)) / p.period + 1) * p.period
        else p.next_elapse + p.period)
      else p.next_elapse := by
  have hsnd := before_loop_snd p.items 0
  rw [hab] at hsnd
  simp only [Option.map_none'] at hsnd
  have hbl : before_loop p.items 0 = ((before_loop p.items 0).1, none) := by
    rw [← hsnd]
  unfold pa_rtpoll_run
  rw [run_pre_finish_noabort p now2 w _ hbl]
  simp only [run_finish_next_elapse]
  show (run_wait_phase { p with running := true } now2 w).1.next_elapse = _
  unfold run_wait_phase
  by_cases hrb : p.rebuild_needed <;>
    simp only [hrb, if_true, if_false, run_update_timer_next_elapse] <;>
    rfl

/-- C2 counterexample: with a periodic timer of period 10 and pre-cycle
deadline 10, resuming at time 20 (exactly the deadline plus one period)
leaves the new deadline at 20, which is not strictly later than the
resume time; the claim's smallest k with 10 + k*10 strictly later than 20
is k = 2, demanding deadline 30 ≠ 20. -/
theorem c2_periodic_counterexample :
    (pa_rtpoll_run
        { pa_rtpoll_new with
            timer_enabled := true
            next_elapse := 10
            period := 10
            installed := true } 20 ⟨0, 0, []⟩).state.next_elapse = 20 ∧
    ¬ (20 < 10 + 1 * 10) ∧ (20 < 10 + 2 * 10) ∧
    (pa_rtpoll_run
        { pa_rtpoll_new with
            timer_enabled := true
            next_elapse := 10
            period := 10
            installed := true } 20 ⟨0, 0, []⟩).state.next_elapse
      ≠ 10 + 2 * 10 := by
  decide

/-- C2 amended: after the wait call returns (no before-hook aborted) with
a periodic timer of period P > 0 and pre-cycle deadline D, the new
deadline is D + P whenever D + P has not already passed at resume time;
only when D + P lies strictly in the past is the deadline advanced to
D + k*P for the smallest integer k >= 1 that lands strictly after the
resume time, so no backlog of missed periods is ever serviced.  (In
particular arming at T0 — first deadline T0 + P — and resuming at
T0 + 7.5 P yields deadline T0 + 8 P.) -/
theorem c2_periodic_catchup (p : pa_rtpoll) (now2 : Nat) (w : WaitOutcome)
    (hab : firstAbortIdx p.items = none)
    (hen : p.timer_enabled = true) (hper : 0 < p.period) :
    (now2 ≤ p.next_elapse + p.period →
      (pa_rtpoll_run p now2 w).state.next_elapse =
        p.next_elapse + p.period) ∧
    (p.next_elapse + p.period < now2 →
      now2 < (pa_rtpoll_run p now2 w).state.next_elapse ∧
      (∃ k, 1 ≤ k ∧ (pa_rtpoll_run p now2 w).state.next_elapse =
        p.next_elapse + k * p.period) ∧
      (∀ j, 1 ≤ j → now2 < p.next_elapse + j * p.period →
        (pa_rtpoll_run p now2 w).state.next_elapse ≤
          p.next_elapse + j * p.period)) := by
  rw [run_next_elapse_noabort p now2 w hab]
  rw [if_pos ⟨hen, hper⟩]
  set D := p.next_elapse with hD
  set P := p.period with hP
  constructor
  · intro hle
    rw [if_neg (by omega)]
  · intro hlt
    rw [if_pos hlt]
    set d := now2 - (D + P) with hd
    set q := d / P with hq
    have h1 : P * q + d % P = d := Nat.div_add_mod d P
    have h2 : d % P < P := Nat.mod_lt d hper
    have h3 : now2 = D + P + d := by omega
    have hR : D + P + (q + 1) * P = D + (q + 2) * P := by ring
    refine ⟨?_, ?_, ?_⟩
    · calc now2 = D + P + (P * q + d % P) := by rw [h1]; exact h3
        _ < D + P + (P * q + P) := by omega
        _ = D + P + (q + 1) * P := by ring
    · exact ⟨q + 2, Nat.succ_le_succ (Nat.zero_le (q + 1)), hR⟩
    · intro j hj1 hjgt
      have h4 : D + (P + P * q + d % P) < D + j * P := by
        calc D + (P + P * q + d % P) = D + P + (P * q + d % P) := by ring
          _ = now2 := by rw [h1]; exact h3.symm
          _ < D + j * P := hjgt
      have h5 : P + P * q + d % P < j * P := Nat.lt_of_add_lt_add_left h4
      have hlt2 : (q + 1) * P < j * P :=
        Nat.lt_of_le_of_lt
          (by calc (q + 1) * P = P + P * q := by ring
            _ ≤ P + P * q + d % P := Nat.le_add_right _ _) h5
      have hqj : q + 1 < j := by
        by_contra hcon
        have : j ≤ q + 1 := by omega
        exact absurd (Nat.mul_le_mul_right P this) (by omega)
      have h6 : (q + 2) * P ≤ j * P := Nat.mul_le_mul_right P (by omega)
      rw [hR]
      exact Nat.add_le_add_left h6 D

/-- Witness for C2 at the claim's own concrete scenario: T0 = 0, P = 2,
so the pre-cycle deadline is D = T0 + P = 2; resuming at
T0 + 7.5 P = 15 yields deadline 16 = T0 + 8 P, strictly later than 15
and minimal among the strictly later multiples. -/
theorem c2_periodic_catchup_witness :
    (firstAbortIdx
        ({ pa_rtpoll_new with
            timer_enabled := true
            next_elapse := 2
            period := 2
            installed := true } : pa_rtpoll).items = none) ∧
    ((2 : Nat) + 2 < 15) ∧
    (15 < (pa_rtpoll_run
        { pa_rtpoll_new with
            timer_enabled := true
            next_elapse := 2
            period := 2
            installed := true } 15 ⟨0, 0, []⟩).state.next_elapse ∧
      (∃ k, 1 ≤ k ∧ (pa_rtpoll_run
        { pa_rtpoll_new with
            timer_enabled := true
            next_elapse := 2
            period := 2
            installed := true } 15 ⟨0, 0, []⟩).state.next_elapse =
          2 + k * 2) ∧
      (∀ j, 1 ≤ j → 15 < 2 + j * 2 →
        (pa_rtpoll_run
          { pa_rtpoll_new with
              timer_enabled := true
              next_elapse := 2
              period := 2
              installed := true } 15 ⟨0, 0, []⟩).state.next_elapse ≤
            2 + j * 2)) ∧
    (pa_rtpoll_run
        { pa_rtpoll_new with
            timer_enabled := true
            next_elapse := 2
            period := 2
            installed := true } 15 ⟨0, 0, []⟩).state.next_elapse = 16 :=
  ⟨rfl, by decide,
    (c2_periodic_catchup
      { pa_rtpoll_new with
          timer_enabled := true
          next_elapse := 2
          period := 2
          installed := true } 15 ⟨0, 0, []⟩ rfl rfl (by decide)).2
      (by decide),
    by decide⟩

/- ------------------------------------------------------------------
C4 — return value and errno of a cycle.
------------------------------------------------------------------ -/

theorem run_ret_errno_noabort (p : pa_rtpoll) (now2 : Nat)
    (w : WaitOutcome) (hab : firstAbortIdx p.items = none) :
    (pa_rtpoll_run p now2 w).ret =
      (if ((w.ret == 0) ||
          (decide (w.ret < 0) && (w.errno == EAGAIN || w.errno == EINTR)))
        then 0 else w.ret) ∧
    (pa_rtpoll_run p now2 w).errnoOut = some w.errno := by
  have hsnd := before_loop_snd p.items 0
  rw [hab] at hsnd
  simp only [Option.map_none'] at hsnd
  have hbl : before_loop p.items 0 = ((before_loop p.items 0).1, none) := by
    rw [← hsnd]
  unfold pa_rtpoll_run
  rw [run_pre_finish_noabort p now2 w _ hbl]
  exact ⟨rfl, rfl⟩

/-- C4: when the cycle reaches the wait call (no before-hook aborts),
`pa_rtpoll_run` returns 0 if the wait timed out or was interrupted by a
benign EAGAIN/EINTR condition, returns the wait call's positive count of
ready descriptors unchanged, returns the wait call's negative value on
any other failure, and in every case hands the caller the `errno` the
wait call left behind. -/
theorem c4_run_return (p : pa_rtpoll) (now2 : Nat) (w : WaitOutcome)
    (hab : firstAbortIdx p.items = none) :
    ((w.ret = 0 ∨ (w.ret < 0 ∧ (w.errno = EAGAIN ∨ w.errno = EINTR))) →
      (pa_rtpoll_run p now2 w).ret = 0) ∧
    (0 < w.ret → (pa_rtpoll_run p now2 w).ret = w.ret) ∧
    ((w.ret < 0 ∧ w.errno ≠ EAGAIN ∧ w.errno ≠ EINTR) →
      (pa_rtpoll_run p now2 w).ret = w.ret) ∧
    (pa_rtpoll_run p now2 w).errnoOut = some w.errno := by
  obtain ⟨hret, herr⟩ := run_ret_errno_noabort p now2 w hab
  rw [hret]
  refine ⟨?_, ?_, ?_, herr⟩
  · intro h
    rcases h with h | ⟨h1, h2⟩
    · simp [h]
    · rcases h2 with h2 | h2 <;> simp [h1, h2]
  · intro h
    rw [if_neg]
    simp only [Bool.or_eq_true, beq_iff_eq, Bool.and_eq_true,
      decide_eq_true_eq, not_or]
    constructor
    · omega
    · intro hcon
      exact absurd hcon.1 (by omega)
  · intro ⟨h1, h2, h3⟩
    rw [if_neg]
    simp only [Bool.or_eq_true, beq_iff_eq, Bool.and_eq_true,
      decide_eq_true_eq, not_or]
    refine ⟨by omega, ?_⟩
    intro hcon
    rcases hcon.2 with hc | hc
    · exact h2 hc
    · exact h3 hc

/-- Witness for C4: an empty poll set, a failing wait with errno 9
(neither EAGAIN nor EINTR): the run returns -1 with errno 9 preserved. -/
theorem c4_run_return_witness :
    firstAbortIdx
      ({ pa_rtpoll_new with installed := true } : pa_rtpoll).items = none ∧
    (pa_rtpoll_run { pa_rtpoll_new with installed := true } 0
      ⟨-1, 9, []⟩).ret = -1 ∧
    (pa_rtpoll_run { pa_rtpoll_new with installed := true } 0
      ⟨-1, 9, []⟩).errnoOut = some 9 :=
  ⟨rfl,
    (c4_run_return { pa_rtpoll_new with installed := true } 0
      ⟨-1, 9, []⟩ rfl).2.2.1 (by decide),
    (c4_run_return { pa_rtpoll_new with installed := true } 0
      ⟨-1, 9, []⟩ rfl).2.2.2⟩

/- ------------------------------------------------------------------
C5 — readiness-bit clearing on a "no events" cycle.
------------------------------------------------------------------ -/

theorem mem_sliceRevents_clearSlice (buf : List Pollfd)
    (i : pa_rtpoll_item) :
    ∀ x ∈ sliceRevents (clearSlice buf i) i, x = 0 := by
  intro x hx
  unfold sliceRevents clearSlice at hx
  cases hoff : i.pollfd_off with
  | none => simp [hoff] at hx
  | some off =>
    simp only [hoff] at hx
    unfold clearRange at hx
    by_cases hle : off ≤ buf.length
    · have hlenA : (buf.take off).length = off := by simp [hle]
      have hAnil : (buf.take off).drop off = [] :=
        List.drop_eq_nil_of_le (by rw [hlenA])
      rw [List.append_assoc, List.drop_append_eq_append_drop, hAnil,
        hlenA, Nat.sub_self, List.drop_zero, List.nil_append,
        List.take_append_eq_append_take, List.map_append] at hx
      rcases List.mem_append.mp hx with h | h
      · obtain ⟨s, hs, hsx⟩ := List.mem_map.mp h
        have hs2 := List.mem_of_mem_take hs
        obtain ⟨t, _, hts⟩ := List.mem_map.mp hs2
        rw [← hsx, ← hts]
      · have hBlen :
            (((buf.drop off).take i.n_pollfd).map
              (fun s => { s with revents := 0 })).length =
            min i.n_pollfd (buf.length - off) := by
          simp
        by_cases hn : i.n_pollfd ≤
            (((buf.drop off).take i.n_pollfd).map
              (fun s => { s with revents := 0 })).length
        · rw [Nat.sub_eq_zero_of_le hn] at h
          simp at h
        · have hsm : buf.length ≤ off + i.n_pollfd := by omega
          rw [List.drop_eq_nil_of_le hsm] at h
          simp at h
    · have h1 : buf.drop off = [] := List.drop_eq_nil_of_le (by omega)
      have h2 : buf.drop (off + i.n_pollfd) = [] :=
        List.drop_eq_nil_of_le (by omega)
      have h3 : (buf.take off).drop off = [] :=
        List.drop_eq_nil_of_le (by simp [List.length_take])
      rw [h1, h2] at hx
      simp only [List.take_nil, List.map_nil, List.append_nil] at hx
      rw [h3] at hx
      simp at hx

theorem after_loop_noev_zero (items : List pa_rtpoll_item) :
    ∀ idx buf j s, Event.afterCall j s ∈ (after_loop items idx buf true).2 →
      ∀ x ∈ s, x = 0 := by
  induction items with
  | nil => intro idx buf j s h; simp [after_loop] at h
  | cons i rest ih =>
    intro idx buf j s h
    simp only [after_loop] at h
    by_cases hd : i.dead
    · rw [if_pos hd] at h
      exact ih _ _ _ _ h
    · rw [if_neg hd] at h
      by_cases hac : i.after_cb.isNone
      · rw [if_pos hac] at h
        exact ih _ _ _ _ h
      · rw [if_neg hac] at h
        simp only [if_true] at h
        rcases List.mem_cons.mp h with h1 | h1
        · have hs : s = sliceRevents (clearSlice buf i) i := by
            injection h1 with _ h2
          rw [hs]
          exact mem_sliceRevents_clearSlice buf i
        · exact ih _ _ _ _ h1

theorem before_loop_events_shape (items : List pa_rtpoll_item) :
    ∀ idx e, e ∈ (before_loop items idx).1 → ∃ j, e = Event.beforeCall j := by
  induction items with
  | nil => intro idx e h; simp [before_loop] at h
  | cons i rest ih =>
    intro idx e h
    simp only [before_loop] at h
    by_cases hd : i.dead
    · rw [if_pos hd] at h; exact ih _ _ h
    · rw [if_neg hd] at h
      cases hcb : i.before_cb with
      | none => simp only [hcb] at h; exact ih _ _ h
      | some cb =>
        simp only [hcb] at h
        by_cases hlt : interpBefore cb i.userdata < 0
        · rw [if_pos hlt] at h
          simp at h
          exact ⟨idx, h⟩
        · rw [if_neg hlt] at h
          rcases List.mem_cons.mp h with h1 | h1
          · exact ⟨idx, h1⟩
          · exact ih _ _ h1

/-- C5 counterexample: a live item with no after-hook whose slot holds
stale readiness bits (revents = 5); an EINTR-interrupted wait is
classified as "no events" (the run returns 0), yet the item's slot still
holds revents = 5 after the run — the code clears readiness bits only on
the slots of live items that have an after-hook, not on every item's
slots. -/
theorem c5_clear_counterexample :
    (pa_rtpoll_run
        { pa_rtpoll_new with
            items := [{ dead := false
                        n_pollfd := 1
                        pollfd_off := some 0
                        before_cb := none
                        after_cb := none
                        userdata := Userdata.nullUd }]
            n_pollfd_used := 1
            pollfd := [⟨3, 1, 5⟩]
            installed := true } 0 ⟨-1, EINTR, []⟩).ret = 0 ∧
    ((pa_rtpoll_run
        { pa_rtpoll_new with
            items := [{ dead := false
                        n_pollfd := 1
                        pollfd_off := some 0
                        before_cb := none
                        after_cb := none
                        userdata := Userdata.nullUd }]
            n_pollfd_used := 1
            pollfd := [⟨3, 1, 5⟩]
            installed := true } 0 ⟨-1, EINTR, []⟩).state.pollfd.getD 0
          zeroPollfd).revents = 5 ∧
    (5 : Nat) ≠ 0 := by
  decide

/-- C5 amended: when a cycle that reached the wait call is classified as
"no events" (timeout, or interruption with EAGAIN/EINTR), the run clears
the readiness bits of each live item that has an after-hook immediately
before invoking that hook, so every after-hook invoked that cycle
observes only zero readiness bits on its slice; slots of dead items and
of items without an after-hook are not cleared. -/
theorem c5_after_observes_zero (p : pa_rtpoll) (now2 : Nat)
    (w : WaitOutcome) (hab : firstAbortIdx p.items = none)
    (hne : w.ret = 0 ∨ (w.ret < 0 ∧ (w.errno = EAGAIN ∨ w.errno = EINTR))) :
    ∀ j s, Event.afterCall j s ∈ (pa_rtpoll_run p now2 w).trace →
      ∀ x ∈ s, x = 0 := by
  have hsnd := before_loop_snd p.items 0
  rw [hab] at hsnd
  simp only [Option.map_none'] at hsnd
  have hbl : before_loop p.items 0 = ((before_loop p.items 0).1, none) := by
    rw [← hsnd]
  have hnoEv : (run_wait_phase { p with running := true } now2 w).2.2
      = true := by
    show ((w.ret == 0) ||
      (decide (w.ret < 0) && (w.errno == EAGAIN || w.errno == EINTR)))
        = true
    rcases hne with h | ⟨h1, h2⟩
    · simp [h]
    · rcases h2 with h2 | h2 <;> simp [h1, h2]
  intro j s hmem
  unfold pa_rtpoll_run at hmem
  rw [run_pre_finish_noabort p now2 w _ hbl] at hmem
  simp only at hmem
  rcases List.mem_append.mp hmem with h | h
  · obtain ⟨j2, hj⟩ := before_loop_events_shape p.items 0 _ h
    simp at hj
  · rcases List.mem_cons.mp h with h1 | h1
    · simp at h1
    · rw [hnoEv] at h1
      exact after_loop_noev_zero _ _ _ _ _ h1

/-- Witness for C5 (amended) at a concrete input: one live item with an
after-hook and stale revents = 5, an EINTR wait; its after-hook observes
the zeroed slice. -/
theorem c5_after_observes_zero_witness :
    firstAbortIdx
      ({ pa_rtpoll_new with
          items := [{ dead := false
                      n_pollfd := 1
                      pollfd_off := some 0
                      before_cb := none
                      after_cb := some AfterCb.test
                      userdata := Userdata.nullUd }]
          n_pollfd_used := 1
          pollfd := [⟨3, 1, 5⟩]
          installed := true } : pa_rtpoll).items = none ∧
    ((-1 : Int) < 0 ∧ (EINTR = EAGAIN ∨ EINTR = EINTR)) ∧
    (Event.afterCall 0 [0] ∈ (pa_rtpoll_run
      { pa_rtpoll_new with
          items := [{ dead := false
                      n_pollfd := 1
                      pollfd_off := some 0
                      before_cb := none
                      after_cb := some AfterCb.test
                      userdata := Userdata.nullUd }]
          n_pollfd_used := 1
          pollfd := [⟨3, 1, 5⟩]
          installed := true } 0 ⟨-1, EINTR, []⟩).trace) ∧
    (∀ x ∈ [0], x = 0) :=
  ⟨rfl, by decide, by decide,
    c5_after_observes_zero
      { pa_rtpoll_new with
          items := [{ dead := false
                      n_pollfd := 1
                      pollfd_off := some 0
                      before_cb := none
                      after_cb := some AfterCb.test
                      userdata := Userdata.nullUd }]
          n_pollfd_used := 1
          pollfd := [⟨3, 1, 5⟩]
          installed := true } 0 ⟨-1, EINTR, []⟩ rfl
      (Or.inr ⟨by decide, Or.inr rfl⟩) 0 [0] (by decide)⟩

/- ------------------------------------------------------------------
C1 — rollback on a before-hook abort.
------------------------------------------------------------------ -/

theorem firstAbortIdx_lt_length (items : List pa_rtpoll_item) :
    ∀ k, firstAbortIdx items = some k → k < items.length := by
  induction items with
  | nil => intro k h; simp [firstAbortIdx] at h
  | cons i rest ih =>
    intro k h
    simp only [firstAbortIdx] at h
    by_cases ha : itemBeforeAborts i = true
    · rw [if_pos ha] at h
      injection h with h1
      simp [← h1]
    · rw [if_neg ha] at h
      cases hr : firstAbortIdx rest with
      | none => rw [hr] at h; simp at h
      | some k1 =>
        rw [hr] at h
        simp only [Option.map_some'] at h
        injection h with h1
        have := ih k1 hr
        simp only [List.length_cons]
        omega

theorem before_loop_fst_abort (items : List pa_rtpoll_item) :
    ∀ idx k, firstAbortIdx items = some k →
      (before_loop items idx).1 =
        (scanIdxs hasLiveBefore (items.take (k + 1)) idx).map
          Event.beforeCall := by
  induction items with
  | nil => intro idx k h; simp [firstAbortIdx] at h
  | cons i rest ih =>
    intro idx k h
    simp only [firstAbortIdx] at h
    by_cases ha : itemBeforeAborts i = true
    · rw [if_pos ha] at h
      injection h with h1
      obtain rfl : k = 0 := h1.symm
      simp only [itemBeforeAborts, Bool.and_eq_true,
        Bool.not_eq_true'] at ha
      obtain ⟨hd, hcb⟩ := ha
      cases hc : i.before_cb with
      | none => rw [hc] at hcb; simp at hcb
      | some cb =>
        rw [hc] at hcb
        simp only [decide_eq_true_eq] at hcb
        simp [before_loop, hd, hc, hcb, scanIdxs, hasLiveBefore]
    · rw [if_neg ha] at h
      cases hr : firstAbortIdx rest with
      | none => rw [hr] at h; simp at h
      | some k1 =>
        rw [hr] at h
        simp only [Option.map_some'] at h
        injection h with h1
        obtain rfl : k = k1 + 1 := h1.symm
        by_cases hd : i.dead = true
        · have hlb : hasLiveBefore i = false := by
            simp [hasLiveBefore, hd]
          simp only [before_loop, hd, if_true, List.take_succ_cons,
            scanIdxs, hlb, if_false, List.nil_append, Bool.false_eq_true]
          exact ih (idx + 1) k1 hr
        · cases hc : i.before_cb with
          | none =>
            have hlb : hasLiveBefore i = false := by
              simp [hasLiveBefore, hc]
            simp only [before_loop, hd, if_false, hc, List.take_succ_cons,
              scanIdxs, hlb, List.nil_append, Bool.false_eq_true]
            exact ih (idx + 1) k1 hr
          | some cb =>
            have hge : ¬ interpBefore cb i.userdata < 0 := by
              intro hcon
              exact ha (by simp [itemBeforeAborts, hd, hc, hcon])
            have hlb : hasLiveBefore i = true := by
              simp [hasLiveBefore, hd, hc]
            simp only [before_loop, hd, if_false, hc, hge,
              List.take_succ_cons, scanIdxs, hlb, if_true,
              List.singleton_append, List.map_cons, Bool.false_eq_true]
            rw [ih (idx + 1) k1 hr]

theorem afterIdxs_append (a b : List Event) :
    afterIdxs (a ++ b) = afterIdxs a ++ afterIdxs b := by
  simp [afterIdxs]

theorem beforeIdxs_append (a b : List Event) :
    beforeIdxs (a ++ b) = beforeIdxs a ++ beforeIdxs b := by
  simp [beforeIdxs]

theorem beforeIdxs_map_beforeCall (l : List Nat) :
    beforeIdxs (l.map Event.beforeCall) = l := by
  induction l with
  | nil => rfl
  | cons j rest ih => simp [beforeIdxs] at ih ⊢; exact ih

theorem afterIdxs_map_beforeCall (l : List Nat) :
    afterIdxs (l.map Event.beforeCall) = [] := by
  induction l with
  | nil => rfl
  | cons j rest ih => simp [afterIdxs] at ih ⊢

theorem rollback_loop_shape (items : List pa_rtpoll_item)
    (buf : List Pollfd) :
    ∀ k e, e ∈ rollback_loop items buf k → ∃ j s, e = Event.afterCall j s := by
  intro k
  induction k with
  | zero => intro e h; simp [rollback_loop] at h
  | succ k ih =>
    intro e h
    simp only [rollback_loop] at h
    rcases List.mem_append.mp h with h1 | h1
    · by_cases hp : (!(items.getD k dfltItem).dead &&
          (items.getD k dfltItem).after_cb.isSome) = true
      · rw [if_pos hp] at h1
        simp at h1
        exact ⟨k, _, h1⟩
      · rw [if_neg hp] at h1
        simp at h1
    · exact ih e h1

theorem beforeIdxs_rollback (items : List pa_rtpoll_item)
    (buf : List Pollfd) :
    ∀ k, beforeIdxs (rollback_loop items buf k) = [] := by
  intro k
  induction k with
  | zero => rfl
  | succ k ih =>
    simp only [rollback_loop, beforeIdxs_append, ih, List.append_nil]
    by_cases hp : (!(items.getD k dfltItem).dead &&
        (items.getD k dfltItem).after_cb.isSome) = true
    · rw [if_pos hp]; rfl
    · rw [if_neg hp]; rfl

theorem scanIdxs_append (pred : pa_rtpoll_item → Bool)
    (l1 l2 : List pa_rtpoll_item) :
    ∀ idx, scanIdxs pred (l1 ++ l2) idx =
      scanIdxs pred l1 idx ++ scanIdxs pred l2 (idx + l1.length) := by
  induction l1 with
  | nil => intro idx; simp [scanIdxs]
  | cons i rest ih =>
    intro idx
    simp only [List.cons_append, scanIdxs, List.length_cons,
      List.append_assoc, List.append_eq]
    congr 1
    rw [ih (idx + 1)]
    congr 2
    omega

theorem scanIdxs_mem_lt (pred : pa_rtpoll_item → Bool)
    (l : List pa_rtpoll_item) :
    ∀ idx j, j ∈ scanIdxs pred l idx → j < idx + l.length := by
  induction l with
  | nil => intro idx j h; simp [scanIdxs] at h
  | cons i rest ih =>
    intro idx j h
    simp only [scanIdxs] at h
    rcases List.mem_append.mp h with h1 | h1
    · by_cases hp : pred i = true
      · rw [if_pos hp] at h1
        simp at h1
        simp [h1]
      · rw [if_neg hp] at h1
        simp at h1
    · have := ih (idx + 1) j h1
      simp only [List.length_cons]
      omega

theorem rollback_afterIdxs (items : List pa_rtpoll_item)
    (buf : List Pollfd) :
    ∀ k, k ≤ items.length →
      afterIdxs (rollback_loop items buf k) =
        (scanIdxs hasLiveAfter (items.take k) 0).reverse := by
  intro k
  induction k with
  | zero => intro _; simp [rollback_loop, afterIdxs, scanIdxs]
  | succ k ih =>
    intro hk
    have hk' : k ≤ items.length := by omega
    have hklt : k < items.length := by omega
    have htake : (items.take k).length = k := by
      simp [List.length_take]
      omega
    simp only [rollback_loop, afterIdxs_append, ih hk']
    rw [List.take_succ, List.getElem?_eq_getElem hklt]
    simp only [Option.toList_some]
    rw [scanIdxs_append, htake, List.reverse_append]
    simp only [scanIdxs, List.append_nil, Nat.zero_add]
    congr 1
    have hgd : items[k] = items.getD k dfltItem := by
      show items.get ⟨k, hklt⟩ = items.getD k dfltItem
      exact get_eq_getD items dfltItem k hklt
    rw [hgd]
    by_cases hp : hasLiveAfter (items.getD k dfltItem) = true
    · rw [if_pos hp, if_pos (by simpa [hasLiveAfter] using hp)]
      simp [afterIdxs]
    · rw [if_neg hp, if_neg (by simpa [hasLiveAfter] using hp)]
      simp [afterIdxs]

/-- C1: if the forward pass finds its first aborting before-hook at list
index k, then the cycle's trace contains no wait event, its before-hook
calls are exactly the live items with a before-hook among indices
0..k (in list order, the aborter last — no further before-hooks run),
and its after-hook calls are exactly the live items with an after-hook
among the previously visited indices 0..k-1, in reverse list order; no
item at or after the aborter receives an after-hook call. -/
theorem c1_abort_rollback (p : pa_rtpoll) (now2 : Nat) (w : WaitOutcome)
    (k : Nat) (hab : firstAbortIdx p.items = some k) :
    Event.wait ∉ (pa_rtpoll_run p now2 w).trace ∧
    beforeIdxs (pa_rtpoll_run p now2 w).trace =
      scanIdxs hasLiveBefore (p.items.take (k + 1)) 0 ∧
    afterIdxs (pa_rtpoll_run p now2 w).trace =
      (scanIdxs hasLiveAfter (p.items.take k) 0).reverse ∧
    (∀ j ∈ afterIdxs (pa_rtpoll_run p now2 w).trace, j < k) := by
  have hklen : k < p.items.length := firstAbortIdx_lt_length p.items k hab
  have hsnd := before_loop_snd p.items 0
  rw [hab] at hsnd
  simp only [Option.map_some', Nat.add_zero] at hsnd
  have hfst := before_loop_fst_abort p.items 0 k hab
  have hbl : before_loop p.items 0 =
      ((scanIdxs hasLiveBefore (p.items.take (k + 1)) 0).map
        Event.beforeCall, some k) := by
    rw [← hfst, ← hsnd]
  have htr : (pa_rtpoll_run p now2 w).trace =
      (scanIdxs hasLiveBefore (p.items.take (k + 1)) 0).map
        Event.beforeCall ++ rollback_loop p.items p.pollfd k := by
    unfold pa_rtpoll_run
    rw [run_pre_finish_abort p now2 w _ k hbl]
  rw [htr]
  refine ⟨?_, ?_, ?_, ?_⟩
  · intro hmem
    rcases List.mem_append.mp hmem with h1 | h1
    · obtain ⟨j, _, hj⟩ := List.mem_map.mp h1
      exact Event.noConfusion hj
    · obtain ⟨j, s, hj⟩ := rollback_loop_shape p.items p.pollfd k _ h1
      exact Event.noConfusion hj
  · rw [beforeIdxs_append, beforeIdxs_map_beforeCall,
      beforeIdxs_rollback, List.append_nil]
  · rw [afterIdxs_append, afterIdxs_map_beforeCall, List.nil_append,
      rollback_afterIdxs p.items p.pollfd k (Nat.le_of_lt hklen)]
  · intro j hj
    rw [afterIdxs_append, afterIdxs_map_beforeCall, List.nil_append,
      rollback_afterIdxs p.items p.pollfd k (Nat.le_of_lt hklen)] at hj
    have hj2 := List.mem_reverse.mp hj
    have := scanIdxs_mem_lt hasLiveAfter (p.items.take k) 0 j hj2
    have hlen : (p.items.take k).length ≤ k := by
      simp [List.length_take]
    omega

/-- Witness for C1 at the spec's own A, B, C scenario: three live items
with after-hooks, B's before-hook aborting; only A's after-hook runs. -/
theorem c1_abort_rollback_witness :
    firstAbortIdx
      ({ pa_rtpoll_new with
          items := [{ dead := false
                      n_pollfd := 1
                      pollfd_off := some 0
                      before_cb := some (BeforeCb.test 0)
                      after_cb := some AfterCb.test
                      userdata := Userdata.nullUd },
                    { dead := false
                      n_pollfd := 1
                      pollfd_off := some 1
                      before_cb := some (BeforeCb.test (-1))
                      after_cb := some AfterCb.test
                      userdata := Userdata.nullUd },
                    { dead := false
                      n_pollfd := 1
                      pollfd_off := some 2
                      before_cb := some (BeforeCb.test 0)
                      after_cb := some AfterCb.test
                      userdata := Userdata.nullUd }]
          n_pollfd_used := 3
          pollfd := [⟨5, 1, 0⟩, ⟨6, 1, 0⟩, ⟨7, 1, 0⟩]
          installed := true } : pa_rtpoll).items = some 1 ∧
    (Event.wait ∉ (pa_rtpoll_run
      { pa_rtpoll_new with
          items := [{ dead := false
                      n_pollfd := 1
                      pollfd_off := some 0
                      before_cb := some (BeforeCb.test 0)
                      after_cb := some AfterCb.test
                      userdata := Userdata.nullUd },
                    { dead := false
                      n_pollfd := 1
                      pollfd_off := some 1
                      before_cb := some (BeforeCb.test (-1))
                      after_cb := some AfterCb.test
                      userdata := Userdata.nullUd },
                    { dead := false
                      n_pollfd := 1
                      pollfd_off := some 2
                      before_cb := some (BeforeCb.test 0)
                      after_cb := some AfterCb.test
                      userdata := Userdata.nullUd }]
          n_pollfd_used := 3
          pollfd := [⟨5, 1, 0⟩, ⟨6, 1, 0⟩, ⟨7, 1, 0⟩]
          installed := true } 0 ⟨0, 0, []⟩).trace ∧
      beforeIdxs (pa_rtpoll_run
        { pa_rtpoll_new with
            items := [{ dead := false
                        n_pollfd := 1
                        pollfd_off := some 0
                        before_cb := some (BeforeCb.test 0)
                        after_cb := some AfterCb.test
                        userdata := Userdata.nullUd },
                      { dead := false
                        n_pollfd := 1
                        pollfd_off := some 1
                        before_cb := some (BeforeCb.test (-1))
                        after_cb := some AfterCb.test
                        userdata := Userdata.nullUd },
                      { dead := false
                        n_pollfd := 1
                        pollfd_off := some 2
                        before_cb := some (BeforeCb.test 0)
                        after_cb := some AfterCb.test
                        userdata := Userdata.nullUd }]
            n_pollfd_used := 3
            pollfd := [⟨5, 1, 0⟩, ⟨6, 1, 0⟩, ⟨7, 1, 0⟩]
            installed := true } 0 ⟨0, 0, []⟩).trace =
        scanIdxs hasLiveBefore
          (({ pa_rtpoll_new with
              items := [{ dead := false
                          n_pollfd := 1
                          pollfd_off := some 0
                          before_cb := some (BeforeCb.test 0)
                          after_cb := some AfterCb.test
                          userdata := Userdata.nullUd },
                        { dead := false
                          n_pollfd := 1
                          pollfd_off := some 1
                          before_cb := some (BeforeCb.test (-1))
                          after_cb := some AfterCb.test
                          userdata := Userdata.nullUd },
                        { dead := false
                          n_pollfd := 1
                          pollfd_off := some 2
                          before_cb := some (BeforeCb.test 0)
                          after_cb := some AfterCb.test
                          userdata := Userdata.nullUd }]
              n_pollfd_used := 3
              pollfd := [⟨5, 1, 0⟩, ⟨6, 1, 0⟩, ⟨7, 1, 0⟩]
              installed := true } : pa_rtpoll).items.take 2) 0 ∧
      afterIdxs (pa_rtpoll_run
        { pa_rtpoll_new with
            items := [{ dead := false
                        n_pollfd := 1
                        pollfd_off := some 0
                        before_cb := some (BeforeCb.test 0)
                        after_cb := some AfterCb.test
                        userdata := Userdata.nullUd },
                      { dead := false
                        n_pollfd := 1
                        pollfd_off := some 1
                        before_cb := some (BeforeCb.test (-1))
                        after_cb := some AfterCb.test
                        userdata := Userdata.nullUd },
                      { dead := false
                        n_pollfd := 1
                        pollfd_off := some 2
                        before_cb := some (BeforeCb.test 0)
                        after_cb := some AfterCb.test
                        userdata := Userdata.nullUd }]
            n_pollfd_used := 3
            pollfd := [⟨5, 1, 0⟩, ⟨6, 1, 0⟩, ⟨7, 1, 0⟩]
            installed := true } 0 ⟨0, 0, []⟩).trace =
        (scanIdxs hasLiveAfter
          (({ pa_rtpoll_new with
              items := [{ dead := false
                          n_pollfd := 1
                          pollfd_off := some 0
                          before_cb := some (BeforeCb.test 0)
                          after_cb := some AfterCb.test
                          userdata := Userdata.nullUd },
                        { dead := false
                          n_pollfd := 1
                          pollfd_off := some 1
                          before_cb := some (BeforeCb.test (-1))
                          after_cb := some AfterCb.test
                          userdata := Userdata.nullUd },
                        { dead := false
                          n_pollfd := 1
                          pollfd_off := some 2
                          before_cb := some (BeforeCb.test 0)
                          after_cb := some AfterCb.test
                          userdata := Userdata.nullUd }]
              n_pollfd_used := 3
              pollfd := [⟨5, 1, 0⟩, ⟨6, 1, 0⟩, ⟨7, 1, 0⟩]
              installed := true } : pa_rtpoll).items.take 1) 0).reverse ∧
      (∀ j ∈ afterIdxs (pa_rtpoll_run
        { pa_rtpoll_new with
            items := [{ dead := false
                        n_pollfd := 1
                        pollfd_off := some 0
                        before_cb := some (BeforeCb.test 0)
                        after_cb := some AfterCb.test
                        userdata := Userdata.nullUd },
                      { dead := false
                        n_pollfd := 1
                        pollfd_off := some 1
                        before_cb := some (BeforeCb.test (-1))
                        after_cb := some AfterCb.test
                        userdata := Userdata.nullUd },
                      { dead := false
                        n_pollfd := 1
                        pollfd_off := some 2
                        before_cb := some (BeforeCb.test 0)
                        after_cb := some AfterCb.test
                        userdata := Userdata.nullUd }]
            n_pollfd_used := 3
            pollfd := [⟨5, 1, 0⟩, ⟨6, 1, 0⟩, ⟨7, 1, 0⟩]
            installed := true } 0 ⟨0, 0, []⟩).trace, j < 1)) :=
  ⟨by decide,
    c1_abort_rollback
      { pa_rtpoll_new with
          items := [{ dead := false
                      n_pollfd := 1
                      pollfd_off := some 0
                      before_cb := some (BeforeCb.test 0)
                      after_cb := some AfterCb.test
                      userdata := Userdata.nullUd },
                    { dead := false
                      n_pollfd := 1
                      pollfd_off := some 1
                      before_cb := some (BeforeCb.test (-1))
                      after_cb := some AfterCb.test
                      userdata := Userdata.nullUd },
                    { dead := false
                      n_pollfd := 1
                      pollfd_off := some 2
                      before_cb := some (BeforeCb.test 0)
                      after_cb := some AfterCb.test
                      userdata := Userdata.nullUd }]
          n_pollfd_used := 3
          pollfd := [⟨5, 1, 0⟩, ⟨6, 1, 0⟩, ⟨7, 1, 0⟩]
          installed := true } 0 ⟨0, 0, []⟩ 1 (by decide)⟩

/- ------------------------------------------------------------------
C7 — deferred reclamation of items freed mid-cycle.
------------------------------------------------------------------ -/

theorem getD_map {α β : Type} (f : α → β) (l : List α) (d : α) :
    ∀ i, (l.map f).getD i (f d) = f (l.getD i d) := by
  induction l with
  | nil => intro i; simp [List.getD]
  | cons x xs ih =>
    intro i
    cases i with
    | zero => simp [List.getD]
    | succ i => simpa [List.getD] using ih i

theorem map_eraseIdx {α β : Type} (f : α → β) (l : List α) :
    ∀ i, (l.map f).eraseIdx i = (l.eraseIdx i).map f := by
  induction l with
  | nil => intro i; simp [List.eraseIdx]
  | cons x xs ih =>
    intro i
    cases i with
    | zero => simp [List.eraseIdx]
    | succ i => simp [List.eraseIdx, ih i]

theorem element_le_slotSum (l : List pa_rtpoll_item) :
    ∀ idx, idx < l.length → (l.getD idx dfltItem).n_pollfd ≤ slotSum l := by
  induction l with
  | nil => intro idx h; simp at h
  | cons i rest ih =>
    intro idx h
    cases idx with
    | zero => simp [List.getD, slotSum_cons]
    | succ idx =>
      have := ih idx (by simpa using h)
      simp only [List.getD_cons_succ, slotSum_cons]
      omega

theorem rebuildItems_pairmap (items : List pa_rtpoll_item) :
    ∀ buf off, ((rebuildItems items buf off).1).map
        (fun i => (i.dead, i.n_pollfd)) =
      items.map (fun i => (i.dead, i.n_pollfd)) := by
  induction items with
  | nil => intro buf off; simp [rebuildItems]
  | cons i rest ih =>
    intro buf off
    simp only [rebuildItems]
    by_cases hn : 0 < i.n_pollfd
    · simp only [hn, if_true, List.map_cons, ih buf (off + i.n_pollfd)]
    · simp only [hn, if_false, List.map_cons, ih buf off]

theorem run_update_timer_frame (q : pa_rtpoll) (now2 : Nat) :
    (run_update_timer q now2).running = q.running ∧
    (run_update_timer q now2).n_pollfd_used = q.n_pollfd_used ∧
    (run_update_timer q now2).scan_for_dead = q.scan_for_dead ∧
    (run_update_timer q now2).items = q.items := by
  unfold run_update_timer
  by_cases h1 : q.timer_enabled <;> by_cases h2 : 0 < q.period <;>
    simp [h1, h2]

theorem run_wait_phase_facts (p : pa_rtpoll) (now2 : Nat)
    (w : WaitOutcome) :
    (run_wait_phase p now2 w).1.running = p.running ∧
    (run_wait_phase p now2 w).1.n_pollfd_used = p.n_pollfd_used ∧
    (run_wait_phase p now2 w).1.scan_for_dead = p.scan_for_dead ∧
    (run_wait_phase p now2 w).1.items.map (fun i => (i.dead, i.n_pollfd)) =
      p.items.map (fun i => (i.dead, i.n_pollfd)) := by
  unfold run_wait_phase
  by_cases hrb : p.rebuild_needed = true
  · rw [if_pos hrb]
    obtain ⟨u1, u2, u3, u4⟩ := run_update_timer_frame
      { rtpoll_rebuild p with
        pollfd := applyRevents (rtpoll_rebuild p).pollfd w.revents } now2
    refine ⟨by rw [u1]; rfl, by rw [u2]; rfl, by rw [u3]; rfl, ?_⟩
    rw [u4]
    show ((rebuildItems p.items p.pollfd 0).1).map _ = _
    exact rebuildItems_pairmap p.items p.pollfd 0
  · rw [if_neg hrb]
    obtain ⟨u1, u2, u3, u4⟩ := run_update_timer_frame
      { p with pollfd := applyRevents p.pollfd w.revents } now2
    exact ⟨by rw [u1], by rw [u2], by rw [u3], by rw [u4]⟩

theorem run_pre_finish_facts (p : pa_rtpoll) (now2 : Nat)
    (w : WaitOutcome) :
    (run_pre_finish p now2 w).1.running = true ∧
    (run_pre_finish p now2 w).1.n_pollfd_used = p.n_pollfd_used ∧
    (run_pre_finish p now2 w).1.scan_for_dead = p.scan_for_dead ∧
    (run_pre_finish p now2 w).1.items.map (fun i => (i.dead, i.n_pollfd)) =
      p.items.map (fun i => (i.dead, i.n_pollfd)) := by
  unfold run_pre_finish
  rcases hbl : before_loop p.items 0 with ⟨bevs, ab⟩
  cases ab with
  | some k => exact ⟨rfl, rfl, rfl, rfl⟩
  | none =>
    obtain ⟨u1, u2, u3, u4⟩ :=
      run_wait_phase_facts { p with running := true } now2 w
    exact ⟨u1, u2, u3, u4⟩

theorem itemFree_running (q : pa_rtpoll) (idx : Nat)
    (hrun : q.running = true) (hidx : idx < q.items.length) :
    (pa_rtpoll_item_free q idx).items =
      q.items.set idx { q.items.get ⟨idx, hidx⟩ with dead := true } ∧
    (pa_rtpoll_item_free q idx).scan_for_dead = true ∧
    (pa_rtpoll_item_free q idx).n_pollfd_used = q.n_pollfd_used ∧
    (pa_rtpoll_item_free q idx).running = true := by
  unfold pa_rtpoll_item_free
  rw [dif_pos hidx, if_pos hrun]
  exact ⟨rfl, rfl, rfl, hrun⟩

theorem reap_items_all_live (l : List pa_rtpoll_item)
    (h : ∀ i ∈ l, i.dead = false) : reap_items l = (l, 0, false) := by
  induction l with
  | nil => rfl
  | cons i rest ih =>
    have hd : i.dead = false := h i (List.mem_cons_self _ _)
    have hrest := ih (fun j hj => h j (List.mem_cons_of_mem _ hj))
    simp [reap_items, hrest, hd]

theorem reap_set_dead (l : List pa_rtpoll_item) :
    ∀ idx (h : idx < l.length), (∀ i ∈ l, i.dead = false) →
      reap_items (l.set idx { l.get ⟨idx, h⟩ with dead := true }) =
        (l.eraseIdx idx, (l.get ⟨idx, h⟩).n_pollfd, true) := by
  induction l with
  | nil => intro idx h; simp at h
  | cons i rest ih =>
    intro idx h hlive
    cases idx with
    | zero =>
      have hrest := reap_items_all_live rest
        (fun j hj => hlive j (List.mem_cons_of_mem _ hj))
      simp [List.set, reap_items, hrest, List.eraseIdx]
    | succ idx =>
      have h2 : idx < rest.length := by simpa using h
      have hrest := ih idx h2
        (fun j hj => hlive j (List.mem_cons_of_mem _ hj))
      have hd : i.dead = false := hlive i (List.mem_cons_self _ _)
      simp [List.set, reap_items, hrest, hd, List.eraseIdx]
      simp only [List.get_eq_getElem] at hrest
      rw [hrest]
      exact ⟨rfl, rfl⟩

/-- C7: when `pa_rtpoll_item_free` is called on a live item while its
poll set's cycle is running (modelled here as a free performed by a
dispatched hook of `pa_rtpoll_run_frees`), the item is not unlinked
mid-cycle — the list keeps its length and the item its slot count — and
by the time the run returns the item has been removed from the item list
(only its entry disappears, in place) and its slot count has been
released from the used-slot total. -/
theorem c7_deferred_reclamation (p : pa_rtpoll) (now2 : Nat)
    (w : WaitOutcome) (idx : Nat) (hidx : idx < p.items.length)
    (hlive : ∀ i ∈ p.items, i.dead = false)
    (hinv : p.n_pollfd_used = slotSum p.items) :
    (pa_rtpoll_item_free (run_pre_finish p now2 w).1 idx).items.length
      = p.items.length ∧
    ((pa_rtpoll_item_free (run_pre_finish p now2 w).1 idx).items.getD idx
        dfltItem).n_pollfd = (p.items.getD idx dfltItem).n_pollfd ∧
    (pa_rtpoll_run_frees p now2 w [idx]).state.items.map
        (fun i => i.n_pollfd)
      = (p.items.map (fun i => i.n_pollfd)).eraseIdx idx ∧
    (pa_rtpoll_run_frees p now2 w [idx]).state.items.length + 1
      = p.items.length ∧
    (pa_rtpoll_run_frees p now2 w [idx]).state.n_pollfd_used +
        (p.items.getD idx dfltItem).n_pollfd = p.n_pollfd_used := by
  obtain ⟨hrun, hused, hscan, hpair⟩ := run_pre_finish_facts p now2 w
  have hlen : (run_pre_finish p now2 w).1.items.length = p.items.length := by
    have := congrArg List.length hpair
    simpa using this
  have hidxq : idx < (run_pre_finish p now2 w).1.items.length := by
    rw [hlen]; exact hidx
  have hmapn : (run_pre_finish p now2 w).1.items.map (fun i => i.n_pollfd)
      = p.items.map (fun i => i.n_pollfd) := by
    have := congrArg (List.map Prod.snd) hpair
    simpa [List.map_map, Function.comp] using this
  have hgdn : ((run_pre_finish p now2 w).1.items.getD idx dfltItem).n_pollfd
      = (p.items.getD idx dfltItem).n_pollfd := by
    have h1 := getD_map (fun i : pa_rtpoll_item => i.n_pollfd)
      (run_pre_finish p now2 w).1.items dfltItem idx
    have h2 := getD_map (fun i : pa_rtpoll_item => i.n_pollfd)
      p.items dfltItem idx
    rw [← h1, ← h2, hmapn]
  have hliveq : ∀ i ∈ (run_pre_finish p now2 w).1.items, i.dead = false := by
    intro i hi
    have hmem : (i.dead, i.n_pollfd) ∈
        (run_pre_finish p now2 w).1.items.map
          (fun i => (i.dead, i.n_pollfd)) :=
      List.mem_map.mpr ⟨i, hi, rfl⟩
    rw [hpair] at hmem
    obtain ⟨i2, hi2, hpr⟩ := List.mem_map.mp hmem
    have := hlive i2 hi2
    have hdead : i2.dead = i.dead := congrArg Prod.fst hpr
    rw [← hdead]
    exact this
  obtain ⟨f1, f2, f3, _⟩ :=
    itemFree_running (run_pre_finish p now2 w).1 idx hrun hidxq
  have hreap := reap_set_dead (run_pre_finish p now2 w).1.items idx hidxq
    hliveq
  have hfold : [idx].foldl pa_rtpoll_item_free (run_pre_finish p now2 w).1
      = pa_rtpoll_item_free (run_pre_finish p now2 w).1 idx := by
    simp
  have hgetn : ((run_pre_finish p now2 w).1.items.get
      ⟨idx, hidxq⟩).n_pollfd = (p.items.getD idx dfltItem).n_pollfd := by
    rw [get_eq_getD _ dfltItem idx hidxq]
    exact hgdn
  have hstate : (pa_rtpoll_run_frees p now2 w [idx]).state =
      run_finish (pa_rtpoll_item_free (run_pre_finish p now2 w).1 idx) := by
    show run_finish
      (List.foldl pa_rtpoll_item_free (run_pre_finish p now2 w).1 [idx]) = _
    rw [hfold]
  have hfin : run_finish (pa_rtpoll_item_free
      (run_pre_finish p now2 w).1 idx) =
      { pa_rtpoll_item_free (run_pre_finish p now2 w).1 idx with
        running := false
        scan_for_dead := false
        items := (run_pre_finish p now2 w).1.items.eraseIdx idx
        n_pollfd_used :=
          (pa_rtpoll_item_free (run_pre_finish p now2 w).1 idx).n_pollfd_used
            - ((run_pre_finish p now2 w).1.items.get ⟨idx, hidxq⟩).n_pollfd
        rebuild_needed := true } := by
    unfold run_finish
    rw [if_pos (by rw [f2])]
    rw [f1, hreap]
    rfl
  refine ⟨?_, ?_, ?_, ?_, ?_⟩
  · rw [f1]
    simp [hlen]
  · rw [f1]
    rw [getD_set_self _ _ _ idx hidxq]
    exact hgetn
  · rw [hstate, hfin]
    show ((run_pre_finish p now2 w).1.items.eraseIdx idx).map _ = _
    rw [← map_eraseIdx, hmapn]
  · rw [hstate, hfin]
    show ((run_pre_finish p now2 w).1.items.eraseIdx idx).length + 1 = _
    rw [List.length_eraseIdx]
    rw [if_pos hidxq, hlen]
    omega
  · rw [hstate, hfin]
    show (pa_rtpoll_item_free (run_pre_finish p now2 w).1 idx).n_pollfd_used
        - ((run_pre_finish p now2 w).1.items.get ⟨idx, hidxq⟩).n_pollfd
      + (p.items.getD idx dfltItem).n_pollfd = p.n_pollfd_used
    rw [f3, hused, hgetn]
    have hle := element_le_slotSum p.items idx hidx
    omega

/-- Witness for C7 at a concrete input: a two-item poll set whose hook
frees the head item during the cycle. -/
theorem c7_deferred_reclamation_witness :
    ((0 : Nat) <
      ({ pa_rtpoll_new with
          items := [mkFreshItem 2, mkFreshItem 3]
          n_pollfd_used := 5
          installed := true } : pa_rtpoll).items.length) ∧
    ((pa_rtpoll_run_frees
        { pa_rtpoll_new with
            items := [mkFreshItem 2, mkFreshItem 3]
            n_pollfd_used := 5
            installed := true } 0 ⟨0, 0, []⟩ [0]).state.items.map
          (fun i => i.n_pollfd)
      = [3]) ∧
    ((pa_rtpoll_run_frees
        { pa_rtpoll_new with
            items := [mkFreshItem 2, mkFreshItem 3]
            n_pollfd_used := 5
            installed := true } 0 ⟨0, 0, []⟩ [0]).state.n_pollfd_used + 2
      = 5) :=
  ⟨by decide,
    by
      have h := (c7_deferred_reclamation
        { pa_rtpoll_new with
            items := [mkFreshItem 2, mkFreshItem 3]
            n_pollfd_used := 5
            installed := true } 0 ⟨0, 0, []⟩ 0 (by decide)
        (by decide) (by decide)).2.2.1
      simpa [mkFreshItem, List.getD] using h,
    by
      have h := (c7_deferred_reclamation
        { pa_rtpoll_new with
            items := [mkFreshItem 2, mkFreshItem 3]
            n_pollfd_used := 5
            installed := true } 0 ⟨0, 0, []⟩ 0 (by decide)
        (by decide) (by decide)).2.2.2.2
      simpa [mkFreshItem, List.getD] using h⟩

end Rtpoll
